import Mathlib

/-!
# candyapi-go: a shallow embedding of `server.go`

The HTTP handlers of `server.go` are embedded as pure functions over an explicit
handler state (`Run`): the store mapping, whether the running handler holds the
mutex, the store accesses it has made so far, and the response writer.

What the Go runtime and standard library decide is an input of the embedding:

* the order in which `range` walks the map (`MapIter`),
* the clock reading `time.Now().UnixNano()` (`now`),
* the draw of `rand.Intn` (`draw`),
* the request body as the JSON scanner of `encoding/json` sees it (`Request.Body`),
  together with the error, if any, that `ioutil.ReadAll` reported (`Request.ReadErr`),
* the result of `r.BasicAuth()` (`Request.BasicAuth`).
-/

namespace CandyAPI

/-! ## Data model -/

/-- Go `type Candy struct`, with wire names `id`, `name`, `type` (server.go 15-19). -/
structure Candy where
  ID : String
  Name : String
  Type_ : String
deriving DecidableEq

/-- The zero value of `Candy` (`var candy Candy`, and what `make` fills a slice with). -/
def Candy.zero : Candy := ⟨"", "", ""⟩

/-- A JSON document as `encoding/json` scans it. Numbers keep their literal text. -/
inductive JVal where
  | null
  | bool (b : Bool)
  | num (lit : String)
  | str (s : String)
  | arr (items : List JVal)
  | obj (members : List (String × JVal))

/-- The first member of a JSON object with the given key. -/
def JVal.field (v : JVal) (key : String) : Option JVal :=
  match v with
  | .obj members => members.lookup key
  | _ => none

/-- The word `encoding/json` uses for a value in an `UnmarshalTypeError`. -/
def JVal.kindName : JVal → String
  | .null => "null"
  | .bool _ => "bool"
  | .num _ => "number"
  | .str _ => "string"
  | .arr _ => "array"
  | .obj _ => "object"

/-- The three fields of `Candy`, with their struct tags. -/
inductive CandyField where
  | id
  | name
  | type_
deriving DecidableEq

/-- The `json:"..."` tag of a field. -/
def CandyField.tag : CandyField → String
  | .id => "id"
  | .name => "name"
  | .type_ => "type"

/-- Assignment to one field of a `Candy`. -/
def CandyField.set (f : CandyField) (c : Candy) (v : String) : Candy :=
  match f with
  | .id => { c with ID := v }
  | .name => { c with Name := v }
  | .type_ => { c with Type_ := v }

/-- Case-insensitive comparison of an object key with a struct tag. The tags `id`, `name`
and `type` hold no letter with a non-ASCII case variant, so ASCII folding is the whole of
the fold `encoding/json` applies to them. -/
def foldEq (key tag : String) : Bool :=
  key.data.map Char.toLower == tag.data.map Char.toLower

/-- The struct field an object key decodes into: an exact tag match is preferred, a
case-insensitive one accepted; a key that matches no tag is skipped. -/
def candyField (key : String) : Option CandyField :=
  if key = CandyField.id.tag then some .id
  else if key = CandyField.name.tag then some .name
  else if key = CandyField.type_.tag then some .type_
  else if foldEq key CandyField.id.tag then some .id
  else if foldEq key CandyField.name.tag then some .name
  else if foldEq key CandyField.type_.tag then some .type_
  else none

/-- One object member decoded into the struct under construction. A string is stored, a
`null` leaves the field alone, any other value records a type error (the first one is
kept) and decoding goes on. -/
def decodeMember (acc : Candy × Option String) (m : String × JVal) : Candy × Option String :=
  match candyField m.1 with
  | none => acc
  | some f =>
    match m.2 with
    | .str v => (f.set acc.1 v, acc.2)
    | .null => acc
    | other =>
      (acc.1, acc.2 <|> some ("json: cannot unmarshal " ++ other.kindName ++
        " into Go struct field Candy." ++ f.tag ++ " of type string"))

/-- The call `json.Unmarshal(bodyBytes, &candy)` on a zero `candy`, for a body that scans
as the JSON value `v`. -/
def unmarshalCandy (v : JVal) : Except String Candy :=
  match v with
  | .null => .ok Candy.zero
  | .obj members =>
    match members.foldl decodeMember (Candy.zero, none) with
    | (c, none) => .ok c
    | (_, some e) => .error e
  | other =>
    .error ("json: cannot unmarshal " ++ other.kindName ++ " into Go value of type main.Candy")

/-- The call `json.Marshal(candy)`: an object with members `id`, `name`, `type`. -/
def marshalCandy (c : Candy) : JVal :=
  .obj [("id", .str c.ID), ("name", .str c.Name), ("type", .str c.Type_)]

/-- The call `json.Marshal(candies)` on a non-nil slice. -/
def marshalCandies (cs : List Candy) : JVal :=
  .arr (cs.map marshalCandy)

/-- The call `fmt.Sprintf("%d", n)` on an integer: decimal digits after an optional sign. -/
def Sprintf_d (n : Int) : String :=
  match n with
  | .ofNat m => Nat.repr m
  | .negSucc m => "-" ++ Nat.repr (m + 1)

/-! ## HTTP plumbing -/

/-- The characters a header field name may hold (`validHeaderFieldByte` of net/textproto):
ASCII letters and digits and the punctuation of an HTTP token, given by code point. -/
def validHeaderFieldChar (c : Char) : Bool :=
  c.isAlphanum ||
    [33, 35, 36, 37, 38, 39, 42, 43, 45, 46, 94, 95, 96, 124, 126].contains c.toNat

/-- The rewriting loop of `textproto.CanonicalMIMEHeaderKey`: the first letter and every
letter after a hyphen in upper case, the others in lower case. -/
def canonicalKeyAux : Bool → List Char → List Char
  | _, [] => []
  | upper, c :: cs =>
    let c1 := if upper then c.toUpper else c.toLower
    c1 :: canonicalKeyAux (c1 == '-') cs

/-- Go `textproto.CanonicalMIMEHeaderKey`: a key that holds a character outside the token
set is returned as it is, any other key is rewritten. -/
def canonicalKey (key : String) : String :=
  if key.data.all validHeaderFieldChar then String.mk (canonicalKeyAux true key.data)
  else key

/-- Go `http.Header`: canonical key to the values added under it. -/
abbrev Header := List (String × List String)

/-- Go `Header.Get`: the first value under the key, or the empty string. -/
def Header.Get (h : Header) (key : String) : String :=
  match h.lookup (canonicalKey key) with
  | some (v :: _) => v
  | _ => ""

/-- Go `Header.Add`: append a value under the key. -/
def Header.Add (h : Header) (key value : String) : Header :=
  match h.lookup (canonicalKey key) with
  | some vs => h.map (fun e => if e.1 = canonicalKey key then (e.1, vs ++ [value]) else e)
  | none => h ++ [(canonicalKey key, [value])]

/-- A piece of response body: text, or the bytes `json.Marshal` produced for a value. -/
inductive Chunk where
  | text (s : String)
  | json (v : JVal)

/-- Go `http.ResponseWriter`: the header map the handler edits, the status line and header
snapshot sent by the first `WriteHeader`, and the body written so far. -/
structure ResponseWriter where
  header : Header
  sent : Option (Nat × Header)
  body : List Chunk

/-- The writer a handler is called with. -/
def ResponseWriter.fresh : ResponseWriter := ⟨[], none, []⟩

/-- Go `WriteHeader`: only the first call counts, it fixes the status and the headers. -/
def ResponseWriter.WriteHeader (w : ResponseWriter) (code : Nat) : ResponseWriter :=
  match w.sent with
  | some _ => w
  | none => { w with sent := some (code, w.header) }

/-- Statuses whose response may carry a body (`bodyAllowedForStatus` of net/http). -/
def bodyAllowedForStatus (code : Nat) : Bool :=
  !((100 ≤ code && code ≤ 199) || code == 204 || code == 304)

/-- Go `Write`: sends status 200 first when no status was sent yet. -/
def ResponseWriter.Write (w : ResponseWriter) (c : Chunk) : ResponseWriter :=
  let w1 := w.WriteHeader 200
  match w1.sent with
  | some (code, _) => if bodyAllowedForStatus code then { w1 with body := w1.body ++ [c] } else w1
  | none => w1

/-- The status the client receives: the one sent, or 200 when the handler sent none. -/
def ResponseWriter.status (w : ResponseWriter) : Nat :=
  match w.sent with
  | some (code, _) => code
  | none => 200

/-- The header the client receives under a key, or the empty string. -/
def ResponseWriter.sentHeader (w : ResponseWriter) (key : String) : String :=
  match w.sent with
  | some (_, h) => Header.Get h key
  | none => Header.Get w.header key

/-- The string member of a JSON object under the given key. -/
def JVal.strField (v : JVal) (key : String) : Option String :=
  match v.field key with
  | some (.str s) => some s
  | _ => none

/-- The items of the JSON array sent as the body. -/
def ResponseWriter.bodyItems (w : ResponseWriter) : Option (List JVal) :=
  match w.body with
  | [.json (.arr items)] => some items
  | _ => none

/-- The string member of the JSON object sent as the body, under the given key. -/
def ResponseWriter.bodyField (w : ResponseWriter) (key : String) : Option String :=
  match w.body with
  | [.json v] =>
    match v.field key with
    | some (.str s) => some s
    | _ => none
  | _ => none

/-- An incoming request, as the handlers read it. -/
structure Request where
  Method : String
  URL : String
  Header : Header
  BasicAuth : Option (String × String)
  Body : Except String JVal
  ReadErr : Option String

/-- Go `strings.Split(s, "/")`. -/
def splitSlash (s : String) : List String :=
  (s.data.splitOn '/').map String.mk

/-! ## The store and the handler state -/

/-- One entry of the map `store map[string]Candy`. -/
abbrev Entry := Sigma (fun _ : String => Candy)

/-- Go `map[string]Candy`: a finite mapping with distinct keys. -/
abbrev Store := AList (fun _ : String => Candy)

/-- The order in which `range` walks a map. Go leaves it unspecified, so it is an input:
any rearrangement of the entries. -/
structure MapIter where
  order : List Entry → List Entry
  perm : ∀ l, (order l).Perm l

/-- The walk that follows the entries as listed. -/
def MapIter.asListed : MapIter := ⟨id, fun l => List.Perm.refl l⟩

/-- The walk that follows the entries backwards. -/
def MapIter.backwards : MapIter := ⟨List.reverse, fun l => List.reverse_perm l⟩

/-- The ways a handler touches `h.store`. -/
inductive StoreOp where
  | len
  | range
  | index (key : String)
  | assign (key : String)
deriving DecidableEq

/-- One access to `h.store`, with whether the handler held the mutex at that moment. -/
structure Access where
  op : StoreOp
  locked : Bool
deriving DecidableEq

/-- The state of one handler call on `h *candyHandlers`: the store, whether this handler
holds `h`'s mutex, its store accesses so far (oldest first), the response writer, and the
run-time panic that ended it, if any. -/
structure Run where
  store : Store
  locked : Bool
  trace : List Access
  w : ResponseWriter
  panicked : Option String

/-- A handler entered on a store: mutex not held, nothing accessed, fresh writer. -/
def Run.start (store : Store) : Run := ⟨store, false, [], ResponseWriter.fresh, none⟩

/-- Go `newCandyHandlers`: the empty store. -/
def newCandyHandlers : Store := ∅

/-- Go `h.Lock()`. -/
def Run.Lock (s : Run) : Run := { s with locked := true }

/-- Go `h.Unlock()`. -/
def Run.Unlock (s : Run) : Run := { s with locked := false }

/-- Record an access to `h.store`. -/
def Run.touch (s : Run) (op : StoreOp) : Run :=
  { s with trace := s.trace ++ [⟨op, s.locked⟩] }

/-- Go `w.WriteHeader(code)`. -/
def Run.WriteHeader (s : Run) (code : Nat) : Run := { s with w := s.w.WriteHeader code }

/-- Go `w.Write(...)`. -/
def Run.Write (s : Run) (c : Chunk) : Run := { s with w := s.w.Write c }

/-- Go `w.Header().Add(key, value)`. -/
def Run.HeaderAdd (s : Run) (key value : String) : Run :=
  { s with w := { s.w with header := Header.Add s.w.header key value } }

/-- The loop `i := 0; for ... range ... { arr[i] = x; i++ }` over the values `xs` the range
yields, starting at index `i`: `none` is the index-out-of-range panic. -/
def assignAll {α : Type} : List α → Nat → List α → Option (List α)
  | arr, _, [] => some arr
  | arr, i, x :: xs => if i < arr.length then assignAll (arr.set i x) (i + 1) xs else none

/-- Go slice indexing `xs[i]` with an `int` index: `none` is the index-out-of-range panic. -/
def sliceIndex {α : Type} (xs : List α) (i : Int) : Option α :=
  if 0 ≤ i ∧ i < xs.length then xs.get? i.toNat else none

/-- Whether every store access of a trace was made with the mutex held. -/
def lockDiscipline (t : List Access) : Bool := t.all (fun a => a.locked)

/-! ## The candy handlers -/

/-- Go `candyHandlers.get` (server.go 43-60). `json.Marshal` cannot fail on a slice of
structs of strings, so its error branch is not taken. -/
def get (it : MapIter) (s : Run) : Run :=
  let s := s.touch .len
  let candies := List.replicate s.store.entries.length Candy.zero
  let s := s.Lock
  let s := s.touch .range
  match assignAll candies 0 ((it.order s.store.entries).map (fun e => e.2)) with
  | none => { s with panicked := some "index out of range" }
  | some candies =>
    let s := s.Unlock
    let jsonBytes := marshalCandies candies
    let s := s.HeaderAdd "content-type" "applicaiton/json"
    let s := s.WriteHeader 200
    s.Write (.json jsonBytes)

/-- Go `candyHandlers.getRandomCandy` (server.go 63-86). `draw` is the value of
`rand.Intn(len(ids))`. The deferred `h.Unlock()` runs when the function ends, also when it
ends in a panic. -/
def getRandomCandy (it : MapIter) (draw : Nat) (s : Run) : Run :=
  let s := s.touch .len
  let ids := List.replicate s.store.entries.length ""
  let s := s.Lock
  let s := s.touch .range
  match assignAll ids 0 ((it.order s.store.entries).map (fun e => e.1)) with
  | none => { s with panicked := some "index out of range" }
  | some ids =>
    let s :=
      if ids.length = 0 then s.WriteHeader 404
      else
        match (if ids.length = 1 then sliceIndex ids 0 else sliceIndex ids ((draw : Int) - 1)) with
        | none => { s with panicked := some "index out of range" }
        | some target =>
          let s := s.HeaderAdd "location" ("/coasters/" ++ target)
          s.WriteHeader 302
    s.Unlock

/-- Go `candyHandlers.getCandy` (server.go 89-117). -/
def getCandy (it : MapIter) (draw : Nat) (r : Request) (s : Run) : Run :=
  let parts := splitSlash r.URL
  if parts.length ≠ 3 then s.WriteHeader 404
  else if parts.get? 2 = some "random" then getRandomCandy it draw s
  else
    let key := (parts.get? 2).getD ""
    let s := s.Lock
    let s := s.touch (.index key)
    let found := s.store.lookup key
    let s := s.Unlock
    match found with
    | none => s.WriteHeader 404
    | some candy =>
      let jsonBytes := marshalCandy candy
      let s := s.HeaderAdd "content-type" "applicaiton/json"
      let s := s.WriteHeader 200
      s.Write (.json jsonBytes)

/-- Go `candyHandlers.post` (server.go 120-150). `now` is `time.Now().UnixNano()`. The
branch for a read error has no `return`. The deferred `h.Unlock()` runs at the end. -/
def post (now : Int) (r : Request) (s : Run) : Run :=
  let s :=
    match r.ReadErr with
    | some e => (s.WriteHeader 500).Write (.text e)
    | none => s
  let ct := Header.Get r.Header "content-type"
  if ct ≠ "application/json" then
    (s.WriteHeader 415).Write
      (.text ("Need content-type 'application/json', but got '" ++ ct ++ "'"))
  else
    match r.Body.bind unmarshalCandy with
    | .error e => (s.WriteHeader 400).Write (.text e)
    | .ok candy =>
      let candy := { candy with ID := Sprintf_d now }
      let s := s.Lock
      let s := s.touch (.assign candy.ID)
      let s := { s with store := s.store.insert candy.ID candy }
      s.Unlock

/-- Go `candyHandlers.candies` (server.go 27-40): dispatch on the method. -/
def candies (it : MapIter) (now : Int) (r : Request) (s : Run) : Run :=
  if r.Method = "GET" then get it s
  else if r.Method = "POST" then post now r s
  else (s.WriteHeader 405).Write (.text "Method not allowed")

/-! ## The admin portal -/

/-- Go `type adminPortal struct`. -/
structure adminPortal where
  password : String

/-- Go `adminPortal.handler` (server.go 170-178). -/
def adminPortal.handler (a : adminPortal) (r : Request) (w : ResponseWriter) : ResponseWriter :=
  match r.BasicAuth with
  | none => (w.WriteHeader 401).Write (.text "401 - unauthorized")
  | some (user, pass) =>
    if user ≠ "admin" ∨ pass ≠ a.password then
      (w.WriteHeader 401).Write (.text "401 - unauthorized")
    else
      w.Write (.text "<html><h1>Welcome to the admin portal</h1></html>")

/-! ## Sequences of requests -/

/-- A sequence of `POST /candies` requests, each with the clock reading it gets, served
one after the other: the final store and the statuses of the responses. -/
def servePosts (store : Store) : List (Int × Request) → Store × List Nat
  | [] => (store, [])
  | p :: ps =>
    let run := post p.1 p.2 (Run.start store)
    let rest := servePosts run.store ps
    (rest.1, run.w.status :: rest.2)

/-! ## Requests used as concrete inputs -/

/-- A `POST /candies` with content type `application/json` and the body of the spec's
round-trip example: an object with members `name` = gummy and `kind` = bear. -/
def gummyKindPost : Request :=
  ⟨"POST", "/candies", [("Content-Type", ["application/json"])], none,
    .ok (.obj [("name", .str "gummy"), ("kind", .str "bear")]), none⟩

/-- The same request with the second member under the key `type`. -/
def gummyTypePost : Request :=
  ⟨"POST", "/candies", [("Content-Type", ["application/json"])], none,
    .ok (.obj [("name", .str "gummy"), ("type", .str "bear")]), none⟩

/-- A `POST /candies` with content type `text/plain`. -/
def plainPost : Request :=
  ⟨"POST", "/candies", [("Content-Type", ["text/plain"])], none,
    .ok (.obj [("name", .str "gummy"), ("type", .str "bear")]), none⟩

/-- A `POST /candies` whose body read delivered a whole JSON object and then failed. -/
def brokenReadPost : Request :=
  ⟨"POST", "/candies", [("Content-Type", ["application/json"])], none,
    .ok (.obj [("name", .str "gummy"), ("type", .str "bear")]), some "unexpected EOF"⟩

/-- A `GET` of the given URL. -/
def getOf (url : String) : Request :=
  ⟨"GET", url, [], none, .error "unexpected end of JSON input", none⟩

/-! ## Auxiliary notions for the proofs -/

/-- The number a string of decimal digits stands for. -/
def decValue (l : List Char) : Nat :=
  Nat.ofDigits 10 ((l.map (fun c => c.toNat - 48)).reverse)

/-- Every record of the store sits under its own `ID` as key. -/
def KeyedByID (s : Store) : Prop := ∀ e ∈ s.entries, e.2.ID = e.1

instance (s : Store) : Decidable (KeyedByID s) := by
  unfold KeyedByID
  infer_instance

/-! ## Decimal formatting -/

theorem digitChar_toNat (d : Nat) (h : d < 10) : (Nat.digitChar d).toNat - 48 = d := by
  interval_cases d <;> rfl

theorem digitChar_isDigit (d : Nat) (h : d < 10) : (Nat.digitChar d).isDigit = true := by
  interval_cases d <;> rfl

theorem toDigitsCore_eq (fuel : Nat) : ∀ (n : Nat) (ds : List Char), n < fuel → 0 < n →
    Nat.toDigitsCore 10 fuel n ds = ((Nat.digits 10 n).reverse.map Nat.digitChar) ++ ds := by
  induction fuel with
  | zero => intro n ds h; omega
  | succ fuel ih =>
    intro n ds hlt hpos
    have hd : Nat.digits 10 n = (n % 10) :: Nat.digits 10 (n / 10) :=
      Nat.digits_def' (by norm_num) hpos
    simp only [Nat.toDigitsCore]
    by_cases h0 : n / 10 = 0
    · simp [h0, hd]
    · have h1 : 0 < n / 10 := Nat.pos_of_ne_zero h0
      have h2 : n / 10 < fuel := by omega
      rw [if_neg h0, ih (n / 10) _ h2 h1, hd]
      simp

theorem toDigits_eq (n : Nat) :
    Nat.toDigits 10 n = if n = 0 then ['0'] else (Nat.digits 10 n).reverse.map Nat.digitChar := by
  by_cases h : n = 0
  · subst h; rfl
  · rw [if_neg h]
    unfold Nat.toDigits
    rw [toDigitsCore_eq (n + 1) n [] (by omega) (Nat.pos_of_ne_zero h)]
    simp

theorem decValue_toDigits (n : Nat) : decValue (Nat.toDigits 10 n) = n := by
  rw [toDigits_eq]
  by_cases h : n = 0
  · subst h; rfl
  · rw [if_neg h]
    unfold decValue
    rw [List.map_map, ← List.map_reverse, List.reverse_reverse]
    have : (Nat.digits 10 n).map ((fun c => c.toNat - 48) ∘ Nat.digitChar) = Nat.digits 10 n := by
      conv_rhs => rw [← List.map_id (Nat.digits 10 n)]
      apply List.map_congr_left
      intro d hd
      exact digitChar_toNat d (Nat.digits_lt_base (by norm_num) hd)
    rw [this, Nat.ofDigits_digits]

theorem toDigits_isDigit (n : Nat) : ∀ c ∈ Nat.toDigits 10 n, c.isDigit = true := by
  intro c hc
  rw [toDigits_eq] at hc
  by_cases h : n = 0
  · subst h; simp at hc; subst hc; rfl
  · rw [if_neg h] at hc
    simp only [List.mem_map, List.mem_reverse] at hc
    obtain ⟨d, hd, rfl⟩ := hc
    exact digitChar_isDigit d (Nat.digits_lt_base (by norm_num) hd)

theorem toDigits_ne_nil (n : Nat) : Nat.toDigits 10 n ≠ [] := by
  intro h
  have := decValue_toDigits n
  rw [h] at this
  have h0 : n = 0 := by rw [← this]; rfl
  subst h0
  exact absurd h (by decide)

theorem Sprintf_d_data (n : Int) :
    (Sprintf_d n).data = match n with
      | .ofNat m => Nat.toDigits 10 m
      | .negSucc m => '-' :: Nat.toDigits 10 (m + 1) := by
  cases n <;> rfl

theorem Sprintf_d_chars (n : Int) : ∀ c ∈ (Sprintf_d n).data, c = '-' ∨ c.isDigit = true := by
  intro c hc
  rw [Sprintf_d_data] at hc
  cases n with
  | ofNat m => exact Or.inr (toDigits_isDigit m c hc)
  | negSucc m =>
    simp only [List.mem_cons] at hc
    rcases hc with h | h
    · exact Or.inl h
    · exact Or.inr (toDigits_isDigit _ c h)

theorem Sprintf_d_ne_empty (n : Int) : Sprintf_d n ≠ "" := by
  intro h
  have hd := congrArg String.data h
  rw [Sprintf_d_data] at hd
  cases n with
  | ofNat m => exact toDigits_ne_nil m hd
  | negSucc m => simp at hd

theorem Sprintf_d_injective : Function.Injective Sprintf_d := by
  intro a b h
  have hd := congrArg String.data h
  rw [Sprintf_d_data, Sprintf_d_data] at hd
  cases a with
  | ofNat m =>
    cases b with
    | ofNat k =>
      have := congrArg decValue hd
      simp only [decValue_toDigits] at this
      rw [this]
    | negSucc k =>
      exfalso
      dsimp only at hd
      have hm := toDigits_isDigit m '-' (by rw [hd]; simp)
      exact absurd hm (by decide)
  | negSucc m =>
    cases b with
    | ofNat k =>
      exfalso
      dsimp only at hd
      have hm := toDigits_isDigit k '-' (by rw [← hd]; simp)
      exact absurd hm (by decide)
    | negSucc k =>
      simp only [List.cons.injEq, true_and] at hd
      have := congrArg decValue hd
      simp only [decValue_toDigits] at this
      have : m = k := by omega
      rw [this]


/-! ## The range loop -/

theorem assignAll_append {α : Type} (xs : List α) : ∀ (pre rest : List α),
    rest.length = xs.length → assignAll (pre ++ rest) pre.length xs = some (pre ++ xs) := by
  induction xs with
  | nil =>
    intro pre rest h
    have : rest = [] := List.length_eq_zero.mp h
    subst this
    rfl
  | cons x xs ih =>
    intro pre rest h
    cases rest with
    | nil => simp at h
    | cons r rest =>
      have hlen : rest.length = xs.length := by simpa using h
      have hlt : pre.length < (pre ++ r :: rest).length := by simp
      have hset : (pre ++ r :: rest).set pre.length x = (pre ++ [x]) ++ rest := by
        simp [List.set_append_right]
      have hl : pre.length + 1 = (pre ++ [x]).length := by simp
      rw [assignAll, if_pos hlt, hset, hl, ih (pre ++ [x]) rest hlen]
      simp

theorem assignAll_replicate {α : Type} (z : α) (xs : List α) (n : Nat) (h : xs.length = n) :
    assignAll (List.replicate n z) 0 xs = some xs := by
  have := assignAll_append xs [] (List.replicate n z) (by simp [h])
  simpa using this

theorem get_eq (it : MapIter) (s : Store) :
    get it (Run.start s) =
      { store := s, locked := false, trace := [⟨.len, false⟩, ⟨.range, true⟩],
        w := ⟨[("Content-Type", ["applicaiton/json"])],
              some (200, [("Content-Type", ["applicaiton/json"])]),
              [.json (marshalCandies ((it.order s.entries).map (fun e => e.2)))]⟩,
        panicked := none } := by
  have hlen : ((it.order s.entries).map (fun e => e.2)).length = s.entries.length := by
    rw [List.length_map]; exact (it.perm s.entries).length_eq
  unfold get
  simp only [Run.touch, Run.Lock, Run.start]
  rw [assignAll_replicate Candy.zero _ _ hlen]
  rfl


/-! ## What `post` does -/

theorem post_ok (now : Int) (r : Request) (s : Store) (c : Candy)
    (hread : r.ReadErr = none)
    (hct : Header.Get r.Header "content-type" = "application/json")
    (hbody : r.Body.bind unmarshalCandy = .ok c) :
    post now r (Run.start s) =
      { store := s.insert (Sprintf_d now) { c with ID := Sprintf_d now }, locked := false,
        trace := [⟨.assign (Sprintf_d now), true⟩], w := ResponseWriter.fresh,
        panicked := none } := by
  unfold post
  simp only [hread, hct, hbody]
  rfl

theorem post_status_cases (now : Int) (r : Request) (s : Store) :
    (post now r (Run.start s)).w.status =
      match r.ReadErr with
      | some _ => 500
      | none =>
        if Header.Get r.Header "content-type" ≠ "application/json" then 415
        else
          match r.Body.bind unmarshalCandy with
          | .error _ => 400
          | .ok _ => 200 := by
  by_cases hct : Header.Get r.Header "content-type" = "application/json"
  · cases hb : r.Body.bind unmarshalCandy <;> cases hread : r.ReadErr <;>
      (simp only [post, hread, hct, hb, ne_eq, not_true_eq_false, if_false]; rfl)
  · cases hread : r.ReadErr <;>
      (simp only [post, hread, hct, ne_eq, not_false_eq_true, if_true]; rfl)

theorem post_status_ok (now : Int) (r : Request) (s : Store)
    (h : (post now r (Run.start s)).w.status = 200) :
    r.ReadErr = none ∧ Header.Get r.Header "content-type" = "application/json" ∧
      ∃ c, r.Body.bind unmarshalCandy = .ok c := by
  rw [post_status_cases] at h
  cases hread : r.ReadErr with
  | some e =>
    rw [hread] at h
    have h500 : (500 : Nat) = 200 := h
    exact absurd h500 (by decide)
  | none =>
    rw [hread] at h
    by_cases hct : Header.Get r.Header "content-type" = "application/json"
    · refine ⟨rfl, hct, ?_⟩
      cases hb : r.Body.bind unmarshalCandy with
      | error e =>
        rw [hb] at h
        simp only [hct, ne_eq, not_true_eq_false, if_false] at h
        exact absurd h (by decide)
      | ok c => exact ⟨c, rfl⟩
    · simp only [hct, ne_eq, not_false_eq_true, if_true] at h
      exact absurd h (by decide)

theorem post_store_cases (now : Int) (r : Request) (s : Store) :
    (post now r (Run.start s)).store = s ∨
      ∃ c, r.Header.Get "content-type" = "application/json" ∧
        r.Body.bind unmarshalCandy = .ok c ∧
        (post now r (Run.start s)).store =
          s.insert (Sprintf_d now) { c with ID := Sprintf_d now } := by
  by_cases hct : Header.Get r.Header "content-type" = "application/json"
  · cases hb : r.Body.bind unmarshalCandy with
    | error e =>
      left
      cases hread : r.ReadErr <;>
        (simp only [post, hread, hct, hb, ne_eq, not_true_eq_false, if_false]; rfl)
    | ok c =>
      right
      refine ⟨c, hct, rfl, ?_⟩
      cases hread : r.ReadErr <;>
        (simp only [post, hread, hct, hb, ne_eq, not_true_eq_false, if_false]; rfl)
  · left
    cases hread : r.ReadErr <;>
      (simp only [post, hread, hct, ne_eq, not_false_eq_true, if_true]; rfl)

/-! ## The dispatcher -/

theorem candies_get (it : MapIter) (now : Int) (r : Request) (s : Run) (h : r.Method = "GET") :
    candies it now r s = get it s := by
  simp [candies, h]

theorem candies_post (it : MapIter) (now : Int) (r : Request) (s : Run)
    (h : r.Method = "POST") : candies it now r s = post now r s := by
  simp [candies, h]

/-! ## Stores built by `post` -/

theorem keyedByID_empty : KeyedByID newCandyHandlers := by
  intro e he
  simp [newCandyHandlers] at he

theorem keyedByID_post (now : Int) (r : Request) (s : Store) (h : KeyedByID s) :
    KeyedByID (post now r (Run.start s)).store := by
  rcases post_store_cases now r s with hs | ⟨c, _, _, hs⟩
  · rw [hs]; exact h
  · rw [hs]
    intro e he
    rw [AList.insert_entries, List.mem_cons] at he
    rcases he with rfl | he
    · rfl
    · exact h e ((List.kerase_sublist _ _).subset he)

theorem keyedByID_servePosts (ps : List (Int × Request)) : ∀ s : Store, KeyedByID s →
    KeyedByID (servePosts s ps).1 := by
  induction ps with
  | nil => intro s h; exact h
  | cons p ps ih =>
    intro s h
    exact ih _ (keyedByID_post p.1 p.2 s h)

theorem ids_eq_keys (s : Store) (h : KeyedByID s) (l : List Entry)
    (hl : ∀ e ∈ l, e ∈ s.entries) :
    l.map (fun e => e.2.ID) = l.map (fun e => e.1) :=
  List.map_congr_left (fun e he => h e (hl e he))

theorem servePosts_length (ps : List (Int × Request)) : ∀ s : Store,
    (∀ c ∈ (servePosts s ps).2, c = 200) → (ps.map Prod.fst).Nodup →
    (∀ p ∈ ps, Sprintf_d p.1 ∉ s.keys) →
    (servePosts s ps).1.entries.length = s.entries.length + ps.length := by
  induction ps with
  | nil => intro s _ _ _; rfl
  | cons p ps ih =>
    intro s hok hnd hfresh
    have hstat : (post p.1 p.2 (Run.start s)).w.status = 200 :=
      hok _ (by simp [servePosts])
    obtain ⟨hread, hct, c, hc⟩ := post_status_ok p.1 p.2 s hstat
    have hpost := post_ok p.1 p.2 s c hread hct hc
    have hstore : (post p.1 p.2 (Run.start s)).store =
        s.insert (Sprintf_d p.1) { c with ID := Sprintf_d p.1 } := by rw [hpost]
    have hnew : Sprintf_d p.1 ∉ s := hfresh p (by simp)
    rw [List.map_cons, List.nodup_cons] at hnd
    have hrest : ∀ q ∈ ps, Sprintf_d q.1 ∉ (post p.1 p.2 (Run.start s)).store.keys := by
      intro q hq
      rw [hstore, AList.keys_insert, List.mem_cons, not_or]
      constructor
      · intro heq
        have : q.1 = p.1 := Sprintf_d_injective heq
        exact hnd.1 (this ▸ List.mem_map_of_mem Prod.fst hq)
      · intro hmem
        exact hfresh q (by simp [hq]) (List.mem_of_mem_erase hmem)
    have := ih _ (fun c hc => hok c (by simp [servePosts, hc])) hnd.2 hrest
    show (servePosts (post p.1 p.2 (Run.start s)).store ps).1.entries.length = _
    rw [this, hstore, AList.insert_entries_of_neg hnew]
    simp
    omega

/-! ## Paths -/

theorem splitSlash_candies (id : String) (h : '/' ∉ id.data) :
    splitSlash ("/candies/" ++ id) = ["", "candies", id] := by
  unfold splitSlash List.splitOn
  have h1 : ("/candies/" ++ id).data = [] ++ '/' :: ("candies".data ++ '/' :: id.data) := by
    rw [String.data_append]; rfl
  rw [h1, List.splitOnP_first _ _ (by simp) '/' (by simp),
    List.splitOnP_first _ _ (by decide) '/' (by simp),
    List.splitOnP_eq_single _ _ (by intro x hx; simp; rintro rfl; exact h hx)]
  rfl

theorem Sprintf_d_no_slash (n : Int) : '/' ∉ (Sprintf_d n).data := by
  intro h
  rcases Sprintf_d_chars n '/' h with h | h
  · exact absurd h (by decide)
  · exact absurd h (by decide)

theorem Sprintf_d_ne_random (n : Int) : Sprintf_d n ≠ "random" := by
  intro h
  have hr : 'r' ∈ (Sprintf_d n).data := by rw [h]; decide
  rcases Sprintf_d_chars n 'r' hr with h | h
  · exact absurd h (by decide)
  · exact absurd h (by decide)

/-! ## What `getCandy` and `getRandomCandy` do -/

theorem getCandy_found (it : MapIter) (draw : Nat) (r : Request) (s : Store) (key : String)
    (c : Candy) (hparts : splitSlash r.URL = ["", "candies", key]) (hkey : key ≠ "random")
    (hc : s.lookup key = some c) :
    getCandy it draw r (Run.start s) =
      { store := s, locked := false, trace := [⟨.index key, true⟩],
        w := ⟨[("Content-Type", ["applicaiton/json"])],
              some (200, [("Content-Type", ["applicaiton/json"])]),
              [.json (marshalCandy c)]⟩,
        panicked := none } := by
  unfold getCandy
  rw [hparts]
  simp [hkey, Run.Lock, Run.touch, Run.Unlock, Run.start, hc]
  rfl

theorem getRandomCandy_eq (it : MapIter) (draw : Nat) (s : Store) :
    getRandomCandy it draw (Run.start s) =
      Run.Unlock
        (if ((it.order s.entries).map (fun e => e.1)).length = 0 then
          Run.WriteHeader ⟨s, true, [⟨.len, false⟩, ⟨.range, true⟩], ResponseWriter.fresh, none⟩ 404
        else
          match (if ((it.order s.entries).map (fun e => e.1)).length = 1
                 then sliceIndex ((it.order s.entries).map (fun e => e.1)) 0
                 else sliceIndex ((it.order s.entries).map (fun e => e.1)) ((draw : Int) - 1)) with
          | none =>
            ⟨s, true, [⟨.len, false⟩, ⟨.range, true⟩], ResponseWriter.fresh,
              some "index out of range"⟩
          | some target =>
            Run.WriteHeader
              (Run.HeaderAdd ⟨s, true, [⟨.len, false⟩, ⟨.range, true⟩], ResponseWriter.fresh, none⟩
                "location" ("/coasters/" ++ target)) 302) := by
  have hlen : ((it.order s.entries).map (fun e => e.1)).length = s.entries.length := by
    rw [List.length_map]; exact (it.perm s.entries).length_eq
  unfold getRandomCandy
  simp only [Run.touch, Run.Lock, Run.start]
  rw [assignAll_replicate "" _ _ hlen]
  rfl

/-! ## C2: distinct ids -/

/-- C2, as stated, fails: two successful POSTs that read the same clock value leave one
record in the store, not two. -/
theorem servePosts_same_clock_collide :
    (∀ c ∈ (servePosts newCandyHandlers [(5, gummyTypePost), (5, gummyTypePost)]).2, c = 200) ∧
    (servePosts newCandyHandlers [(5, gummyTypePost), (5, gummyTypePost)]).1.entries.length = 1 ∧
    ¬ ((servePosts newCandyHandlers [(5, gummyTypePost), (5, gummyTypePost)]).1.entries.length
        = [(5, gummyTypePost), (5, gummyTypePost)].length) := by
  decide

/-- C2, amended: N successful POSTs applied to the empty store, whose clock readings are
pairwise distinct, leave exactly N records, and the N id values are pairwise distinct. -/
theorem servePosts_distinct_ids (ps : List (Int × Request))
    (hok : ∀ c ∈ (servePosts newCandyHandlers ps).2, c = 200)
    (hclock : (ps.map Prod.fst).Nodup) :
    (servePosts newCandyHandlers ps).1.entries.length = ps.length ∧
    ((servePosts newCandyHandlers ps).1.entries.map (fun e => e.2.ID)).Nodup := by
  constructor
  · have := servePosts_length ps newCandyHandlers hok hclock (by simp [newCandyHandlers])
    simpa [newCandyHandlers] using this
  · have hk := keyedByID_servePosts ps newCandyHandlers keyedByID_empty
    rw [ids_eq_keys _ hk _ (fun _ h => h)]
    exact (servePosts newCandyHandlers ps).1.keys_nodup

/-- An instance: two successful POSTs that read the clock values 5 and 6. -/
theorem servePosts_distinct_ids_witness :
    (∀ c ∈ (servePosts newCandyHandlers [(5, gummyTypePost), (6, gummyKindPost)]).2, c = 200) ∧
    ([(5, gummyTypePost), (6, gummyKindPost)].map Prod.fst).Nodup ∧
    (servePosts newCandyHandlers [(5, gummyTypePost), (6, gummyKindPost)]).1.entries.length = 2 ∧
    ((servePosts newCandyHandlers [(5, gummyTypePost), (6, gummyKindPost)]).1.entries.map
      (fun e => e.2.ID)).Nodup :=
  ⟨by decide, by decide,
    servePosts_distinct_ids [(5, gummyTypePost), (6, gummyKindPost)] (by decide) (by decide)⟩

/-! ## C7: the listing -/

/-- C7: on a store reached from the empty one by successful POSTs, whatever order the map
is walked in, `GET /candies` answers 200 and the body sent is one JSON array. The array has
as many items as the store has records; it is a rearrangement of the stored records, each
written as the object with members `id` (the key it is stored under), `name` and `type`;
the `id` members of its items are a rearrangement of the store's keys, which are distinct;
and it is empty when the store is. -/
theorem get_lists_store (ps : List (Int × Request)) (it : MapIter)
    (_hok : ∀ c ∈ (servePosts newCandyHandlers ps).2, c = 200) :
    (get it (Run.start (servePosts newCandyHandlers ps).1)).w.status = 200 ∧
    (get it (Run.start (servePosts newCandyHandlers ps).1)).panicked = none ∧
    ∃ items : List JVal,
      (get it (Run.start (servePosts newCandyHandlers ps).1)).w.body = [.json (.arr items)] ∧
      (get it (Run.start (servePosts newCandyHandlers ps).1)).w.bodyItems = some items ∧
      items.length = (servePosts newCandyHandlers ps).1.entries.length ∧
      items.Perm ((servePosts newCandyHandlers ps).1.entries.map (fun e =>
        JVal.obj [("id", .str e.1), ("name", .str e.2.Name), ("type", .str e.2.Type_)])) ∧
      (items.map (fun v => v.strField "id")).Perm
        ((servePosts newCandyHandlers ps).1.keys.map some) ∧
      (servePosts newCandyHandlers ps).1.keys.Nodup ∧
      ((servePosts newCandyHandlers ps).1.entries = [] → items = []) := by
  have hk := keyedByID_servePosts ps newCandyHandlers keyedByID_empty
  have hperm := it.perm (servePosts newCandyHandlers ps).1.entries
  have hobj : ∀ e ∈ it.order (servePosts newCandyHandlers ps).1.entries,
      (fun e : Entry => marshalCandy e.2) e =
        (fun e : Entry =>
          JVal.obj [("id", .str e.1), ("name", .str e.2.Name), ("type", .str e.2.Type_)]) e := by
    intro e he
    have hid : e.2.ID = e.1 := hk e (hperm.subset he)
    simp only [marshalCandy, hid]
  have hids : ∀ e ∈ it.order (servePosts newCandyHandlers ps).1.entries,
      (fun e : Entry => (marshalCandy e.2).strField "id") e = (fun e : Entry => some e.1) e := by
    intro e he
    have hid : e.2.ID = e.1 := hk e (hperm.subset he)
    show (marshalCandy e.2).strField "id" = some e.1
    rw [← hid]
    rfl
  have hbody : (get it (Run.start (servePosts newCandyHandlers ps).1)).w.body =
      [.json (.arr ((it.order (servePosts newCandyHandlers ps).1.entries).map
        (fun e : Entry => marshalCandy e.2)))] := by
    rw [get_eq]
    simp only [marshalCandies, List.map_map]
    rfl
  have hitems : (get it (Run.start (servePosts newCandyHandlers ps).1)).w.bodyItems =
      some ((it.order (servePosts newCandyHandlers ps).1.entries).map
        (fun e : Entry => marshalCandy e.2)) := by
    simp only [ResponseWriter.bodyItems, hbody]
  have hstatus : (get it (Run.start (servePosts newCandyHandlers ps).1)).w.status = 200 := by
    rw [get_eq]; rfl
  have hpanic : (get it (Run.start (servePosts newCandyHandlers ps).1)).panicked = none := by
    rw [get_eq]
  refine ⟨hstatus, hpanic, _, hbody, hitems, ?_, ?_, ?_, AList.keys_nodup _, ?_⟩
  · rw [List.length_map]
    exact hperm.length_eq
  · rw [List.map_congr_left hobj]
    exact hperm.map _
  · rw [List.map_map]
    have hmap : (it.order (servePosts newCandyHandlers ps).1.entries).map
        ((fun v : JVal => v.strField "id") ∘ fun e : Entry => marshalCandy e.2) =
        (it.order (servePosts newCandyHandlers ps).1.entries).map
          (fun e : Entry => some e.1) :=
      List.map_congr_left hids
    rw [hmap]
    have hkeys : (servePosts newCandyHandlers ps).1.keys.map some =
        (servePosts newCandyHandlers ps).1.entries.map (fun e : Entry => some e.1) := by
      simp [AList.keys, List.keys, List.map_map, Function.comp_def]
    rw [hkeys]
    exact hperm.map _
  · intro hnil
    rw [hnil] at hperm
    rw [hnil, List.Perm.eq_nil hperm]
    rfl

/-- An instance: the store after two successful POSTs with clock values 5 and 6, walked
backwards; the array sent holds the two records. -/
theorem get_lists_store_witness :
    (∀ c ∈ (servePosts newCandyHandlers [(5, gummyTypePost), (6, gummyKindPost)]).2, c = 200) ∧
    (get MapIter.backwards (Run.start
      (servePosts newCandyHandlers [(5, gummyTypePost), (6, gummyKindPost)]).1)).w.bodyItems =
        some [.obj [("id", .str "5"), ("name", .str "gummy"), ("type", .str "bear")],
              .obj [("id", .str "6"), ("name", .str "gummy"), ("type", .str "")]] ∧
    ∃ items : List JVal,
      (get MapIter.backwards (Run.start
        (servePosts newCandyHandlers [(5, gummyTypePost), (6, gummyKindPost)]).1)).w.body =
          [.json (.arr items)] ∧
      items.length = 2 ∧
      (items.map (fun v => v.strField "id")).Perm [some "6", some "5"] :=
  ⟨by decide, rfl,
    (get_lists_store [(5, gummyTypePost), (6, gummyKindPost)] MapIter.backwards
      (by decide)).2.2.imp
      (fun _ h => ⟨h.1, h.2.2.1, h.2.2.2.2.1⟩)⟩

/-! ## C6, C3: validation in `post` -/

/-- C6: a POST whose body was read without error and whose content type is anything but
`application/json` (also none at all) is answered 415 and leaves the store as it was. -/
theorem post_wrong_content_type (now : Int) (r : Request) (s : Store)
    (hread : r.ReadErr = none)
    (hct : Header.Get r.Header "content-type" ≠ "application/json") :
    (post now r (Run.start s)).w.status = 415 ∧
    (post now r (Run.start s)).store = s ∧
    (post now r (Run.start s)).store.entries.length = s.entries.length := by
  have h : post now r (Run.start s) =
      ((Run.start s).WriteHeader 415).Write
        (.text ("Need content-type 'application/json', but got '" ++
          Header.Get r.Header "content-type" ++ "'")) := by
    simp only [post, hread, hct, ne_eq, not_false_eq_true, if_true]
  rw [h]
  exact ⟨rfl, rfl, rfl⟩

/-- An instance: a POST with content type `text/plain` on the empty store. -/
theorem post_wrong_content_type_witness :
    plainPost.ReadErr = none ∧
    Header.Get plainPost.Header "content-type" ≠ "application/json" ∧
    (post 5 plainPost (Run.start newCandyHandlers)).w.status = 415 ∧
    (post 5 plainPost (Run.start newCandyHandlers)).store = newCandyHandlers :=
  ⟨rfl, by decide,
    (post_wrong_content_type 5 plainPost newCandyHandlers rfl (by decide)).1,
    (post_wrong_content_type 5 plainPost newCandyHandlers rfl (by decide)).2.1⟩

/-- C3 at its failing input: the body read fails after delivering a whole JSON object, the
handler answers 500 and goes on, and the record is stored all the same. -/
theorem post_read_error_still_stores :
    brokenReadPost.ReadErr = some "unexpected EOF" ∧
    (post 5 brokenReadPost (Run.start newCandyHandlers)).w.status = 500 ∧
    newCandyHandlers.keys = [] ∧
    (post 5 brokenReadPost (Run.start newCandyHandlers)).store.keys = ["5"] ∧
    (post 5 brokenReadPost (Run.start newCandyHandlers)).store.lookup "5"
      = some ⟨"5", "gummy", "bear"⟩ := by
  decide

/-! ## C8: the admin portal -/

/-- C8: for every configured password and every request, the admin handler answers 200 with
the welcome page exactly when the request carries basic-auth credentials with user name
`admin` and the configured password; in every other case it answers 401. -/
theorem adminPortal_handler_auth (a : adminPortal) (r : Request) :
    (((a.handler r ResponseWriter.fresh).status = 200 ∧
        (a.handler r ResponseWriter.fresh).body =
          [.text "<html><h1>Welcome to the admin portal</h1></html>"]) ↔
      r.BasicAuth = some ("admin", a.password)) ∧
    (r.BasicAuth = some ("admin", a.password) ∨
      ((a.handler r ResponseWriter.fresh).status = 401 ∧
        (a.handler r ResponseWriter.fresh).body = [.text "401 - unauthorized"])) := by
  cases hb : r.BasicAuth with
  | none =>
    simp only [adminPortal.handler, hb]
    constructor
    · constructor
      · intro h; exact absurd h.1 (by decide)
      · intro h; cases h
    · right; exact ⟨rfl, rfl⟩
  | some cred =>
    obtain ⟨user, pass⟩ := cred
    simp only [adminPortal.handler, hb]
    by_cases h : user ≠ "admin" ∨ pass ≠ a.password
    · rw [if_pos h]
      constructor
      · constructor
        · intro h'; exact absurd h'.1 (by decide)
        · intro h'
          simp only [Option.some.injEq, Prod.mk.injEq] at h'
          rcases h with h | h
          · exact absurd h'.1 h
          · exact absurd h'.2 h
      · right; exact ⟨rfl, rfl⟩
    · rw [if_neg h]
      have h1 : user = "admin" ∧ pass = a.password := by
        constructor
        · by_contra hc; exact h (Or.inl hc)
        · by_contra hc; exact h (Or.inr hc)
      constructor
      · constructor
        · intro _; rw [h1.1, h1.2]
        · intro _; exact ⟨rfl, rfl⟩
      · left; rw [h1.1, h1.2]

/-! ## C1, C5: the random redirect -/

/-- C1 at its failing inputs: on every store with two or more records, in whatever order
the map is walked, the draw 0 (which `rand.Intn` can return) makes the handler index the
id list at -1; it panics and sends no redirect. -/
theorem getRandomCandy_draw_zero_panics (it : MapIter) (s : Store)
    (h : 2 ≤ s.entries.length) :
    (getRandomCandy it 0 (Run.start s)).panicked = some "index out of range" ∧
    (getRandomCandy it 0 (Run.start s)).w.sent = none := by
  have hlen : ((it.order s.entries).map (fun e => e.1)).length = s.entries.length := by
    rw [List.length_map]; exact (it.perm s.entries).length_eq
  have h0 : ¬ ((it.order s.entries).map (fun e => e.1)).length = 0 := by omega
  have h1 : ¬ ((it.order s.entries).map (fun e => e.1)).length = 1 := by omega
  have hidx : sliceIndex ((it.order s.entries).map (fun e => e.1)) (((0 : Nat) : Int) - 1)
      = none := by
    unfold sliceIndex
    rw [if_neg]
    intro hc
    omega
  rw [getRandomCandy_eq, if_neg h0, if_neg h1, hidx]
  exact ⟨rfl, rfl⟩

/-- An instance: the store after two successful POSTs with clock values 5 and 6. -/
theorem getRandomCandy_draw_zero_panics_witness :
    2 ≤ (servePosts newCandyHandlers [(5, gummyTypePost), (6, gummyTypePost)]).1.entries.length ∧
    (getRandomCandy MapIter.asListed 0
      (Run.start (servePosts newCandyHandlers [(5, gummyTypePost), (6, gummyTypePost)]).1)).panicked
        = some "index out of range" :=
  ⟨by decide,
    (getRandomCandy_draw_zero_panics MapIter.asListed
      (servePosts newCandyHandlers [(5, gummyTypePost), (6, gummyTypePost)]).1 (by decide)).1⟩

theorem sliceIndex_mem {α : Type} (xs : List α) (i : Int) (x : α)
    (h : sliceIndex xs i = some x) : x ∈ xs := by
  unfold sliceIndex at h
  split at h
  · exact List.get?_mem h
  · cases h

theorem coasters_ne_candies (t : String) : "/coasters/" ++ t ≠ "/candies/" ++ t := by
  intro h
  have hd := congrArg String.data h
  rw [String.data_append, String.data_append] at hd
  have h2 : some 'o' = some 'a' := congrArg (fun l => l.get? 2) hd
  exact absurd h2 (by decide)

/-- C5 at its failing inputs: whenever the handler answers 302, the Location header is
`/coasters/` followed by one of the store's keys, a path no route of `main` serves, and
not `/candies/` followed by that key. -/
theorem getRandomCandy_location (it : MapIter) (draw : Nat) (s : Store)
    (h : (getRandomCandy it draw (Run.start s)).w.status = 302) :
    ∃ target ∈ s.keys,
      (getRandomCandy it draw (Run.start s)).w.sentHeader "location" = "/coasters/" ++ target ∧
      (getRandomCandy it draw (Run.start s)).w.sentHeader "location" ≠ "/candies/" ++ target := by
  rw [getRandomCandy_eq] at h ⊢
  by_cases h0 : ((it.order s.entries).map (fun e => e.1)).length = 0
  · rw [if_pos h0] at h
    have h404 : (404 : Nat) = 302 := h
    exact absurd h404 (by decide)
  · rw [if_neg h0] at h ⊢
    cases hsel : (if ((it.order s.entries).map (fun e => e.1)).length = 1
                 then sliceIndex ((it.order s.entries).map (fun e => e.1)) 0
                 else sliceIndex ((it.order s.entries).map (fun e => e.1)) ((draw : Int) - 1)) with
    | none =>
      rw [hsel] at h
      have h200 : (200 : Nat) = 302 := h
      exact absurd h200 (by decide)
    | some target =>
      have hmem : target ∈ (it.order s.entries).map (fun e => e.1) := by
        split at hsel
        · exact sliceIndex_mem _ _ _ hsel
        · exact sliceIndex_mem _ _ _ hsel
      have hkeys : target ∈ s.keys := ((it.perm s.entries).map (fun e => e.1)).subset hmem
      have hloc : (Run.Unlock (Run.WriteHeader
          (Run.HeaderAdd ⟨s, true, [⟨.len, false⟩, ⟨.range, true⟩], ResponseWriter.fresh, none⟩
            "location" ("/coasters/" ++ target)) 302)).w.sentHeader "location"
          = "/coasters/" ++ target := by
        simp only [Run.Unlock, Run.WriteHeader, Run.HeaderAdd, ResponseWriter.WriteHeader,
          ResponseWriter.fresh, ResponseWriter.sentHeader, Header.Add, Header.Get]
        have hk : canonicalKey "location" = "Location" := by decide
        simp [hk]
      refine ⟨target, hkeys, ?_, ?_⟩
      · exact hloc
      · rw [hloc]; exact coasters_ne_candies target

/-- An instance: the store holding the one record with id 5. -/
theorem getRandomCandy_location_witness :
    (getRandomCandy MapIter.asListed 0
      (Run.start (servePosts newCandyHandlers [(5, gummyTypePost)]).1)).w.status = 302 ∧
    ∃ target ∈ (servePosts newCandyHandlers [(5, gummyTypePost)]).1.keys,
      (getRandomCandy MapIter.asListed 0
        (Run.start (servePosts newCandyHandlers [(5, gummyTypePost)]).1)).w.sentHeader "location"
          = "/coasters/" ++ target ∧
      (getRandomCandy MapIter.asListed 0
        (Run.start (servePosts newCandyHandlers [(5, gummyTypePost)]).1)).w.sentHeader "location"
          ≠ "/candies/" ++ target :=
  ⟨by decide,
    getRandomCandy_location MapIter.asListed 0
      (servePosts newCandyHandlers [(5, gummyTypePost)]).1 (by decide)⟩

/-! ## C9: the content type of the answers -/

/-- C9 at its failing inputs: every answer of `GET /candies` has status 200 and carries the
content type `applicaiton/json`, which is not `application/json`; the same holds for a
`GET /candies/5` that finds its record. -/
theorem content_type_misspelt (it : MapIter) (s : Store) :
    (get it (Run.start s)).w.status = 200 ∧
    (get it (Run.start s)).w.sentHeader "content-type" = "applicaiton/json" ∧
    (get it (Run.start s)).w.sentHeader "content-type" ≠ "application/json" ∧
    (getCandy it 0 (getOf "/candies/5")
      (Run.start (servePosts newCandyHandlers [(5, gummyTypePost)]).1)).w.status = 200 ∧
    (getCandy it 0 (getOf "/candies/5")
      (Run.start (servePosts newCandyHandlers [(5, gummyTypePost)]).1)).w.sentHeader "content-type"
        = "applicaiton/json" := by
  have hg : getCandy it 0 (getOf "/candies/5")
      (Run.start (servePosts newCandyHandlers [(5, gummyTypePost)]).1) = _ :=
    getCandy_found it 0 (getOf "/candies/5")
      (servePosts newCandyHandlers [(5, gummyTypePost)]).1 "5" ⟨"5", "gummy", "bear"⟩
      (by decide) (by decide) (by decide)
  rw [get_eq, hg]
  refine ⟨rfl, rfl, ?_, rfl, rfl⟩
  show "applicaiton/json" ≠ "application/json"
  decide

/-! ## C10: the lock -/

theorem getRandomCandy_trace (it : MapIter) (draw : Nat) (s : Store) :
    (getRandomCandy it draw (Run.start s)).trace = [⟨.len, false⟩, ⟨.range, true⟩] := by
  rw [getRandomCandy_eq]
  split
  · rfl
  · split <;> rfl

/-- C10 at its failing inputs: in `get` and in `getRandomCandy`, on every store, the first
access to the store is the read of its length, made before `Lock`; so the accesses of
neither handler are all made with the mutex held. -/
theorem len_read_before_lock (it : MapIter) (draw : Nat) (s : Store) :
    (get it (Run.start s)).trace = [⟨.len, false⟩, ⟨.range, true⟩] ∧
    lockDiscipline (get it (Run.start s)).trace = false ∧
    (getRandomCandy it draw (Run.start s)).trace = [⟨.len, false⟩, ⟨.range, true⟩] ∧
    lockDiscipline (getRandomCandy it draw (Run.start s)).trace = false := by
  rw [getRandomCandy_trace, get_eq]
  exact ⟨rfl, rfl, rfl, rfl⟩

/-! ## C4: the round trip -/

/-- C4, as stated, fails: after a successful POST of the object with `name` = gummy and
`kind` = bear, the record served under the minted id has no member `kind`, and its second
attribute, sent as `type`, is empty. -/
theorem roundtrip_kind_lost :
    (post 5 gummyKindPost (Run.start newCandyHandlers)).w.status = 200 ∧
    (post 5 gummyKindPost (Run.start newCandyHandlers)).store.keys = [Sprintf_d 5] ∧
    (getCandy MapIter.asListed 0 (getOf ("/candies/" ++ Sprintf_d 5))
      (Run.start (post 5 gummyKindPost (Run.start newCandyHandlers)).store)).w.status = 200 ∧
    (getCandy MapIter.asListed 0 (getOf ("/candies/" ++ Sprintf_d 5))
      (Run.start (post 5 gummyKindPost (Run.start newCandyHandlers)).store)).w.bodyField "name"
        = some "gummy" ∧
    (getCandy MapIter.asListed 0 (getOf ("/candies/" ++ Sprintf_d 5))
      (Run.start (post 5 gummyKindPost (Run.start newCandyHandlers)).store)).w.bodyField "kind"
        = none ∧
    (getCandy MapIter.asListed 0 (getOf ("/candies/" ++ Sprintf_d 5))
      (Run.start (post 5 gummyKindPost (Run.start newCandyHandlers)).store)).w.bodyField "type"
        = some "" ∧
    ¬ ((getCandy MapIter.asListed 0 (getOf ("/candies/" ++ Sprintf_d 5))
      (Run.start (post 5 gummyKindPost (Run.start newCandyHandlers)).store)).w.bodyField "kind"
        = some "bear") := by
  decide

/-- C4, amended: for all strings name and kind, after a POST with content type
`application/json`, read without error, whose body is the object with members `name` = name
and `type` = kind, both answers are 200 and `GET /candies/` followed by the minted id
returns the record with that name, with kind under the member `type`, and with the minted
id, which is not empty. -/
theorem post_then_getCandy (now : Int) (it : MapIter) (draw : Nat) (s : Store)
    (r g : Request) (name kind : String)
    (hread : r.ReadErr = none)
    (hct : Header.Get r.Header "content-type" = "application/json")
    (hbody : r.Body = .ok (.obj [("name", .str name), ("type", .str kind)]))
    (hurl : g.URL = "/candies/" ++ Sprintf_d now) :
    (post now r (Run.start s)).w.status = 200 ∧
    (getCandy it draw g (Run.start (post now r (Run.start s)).store)).w.status = 200 ∧
    (getCandy it draw g (Run.start (post now r (Run.start s)).store)).w.bodyField "name"
      = some name ∧
    (getCandy it draw g (Run.start (post now r (Run.start s)).store)).w.bodyField "type"
      = some kind ∧
    (getCandy it draw g (Run.start (post now r (Run.start s)).store)).w.bodyField "id"
      = some (Sprintf_d now) ∧
    Sprintf_d now ≠ "" := by
  have hdec : r.Body.bind unmarshalCandy = .ok ⟨"", name, kind⟩ := by rw [hbody]; rfl
  have hpost := post_ok now r s _ hread hct hdec
  have hparts : splitSlash g.URL = ["", "candies", Sprintf_d now] := by
    rw [hurl]; exact splitSlash_candies _ (Sprintf_d_no_slash now)
  have hget := getCandy_found it draw g
    (s.insert (Sprintf_d now) ⟨Sprintf_d now, name, kind⟩) (Sprintf_d now)
    ⟨Sprintf_d now, name, kind⟩ hparts (Sprintf_d_ne_random now) (AList.lookup_insert s)
  rw [hpost]
  dsimp only
  rw [hget]
  exact ⟨rfl, rfl, rfl, rfl, rfl, Sprintf_d_ne_empty now⟩

/-- An instance: name gummy, kind bear, clock value 5, on the empty store. -/
theorem post_then_getCandy_witness :
    gummyTypePost.ReadErr = none ∧
    Header.Get gummyTypePost.Header "content-type" = "application/json" ∧
    gummyTypePost.Body = .ok (.obj [("name", .str "gummy"), ("type", .str "bear")]) ∧
    (getOf ("/candies/" ++ Sprintf_d 5)).URL = "/candies/" ++ Sprintf_d 5 ∧
    (getCandy MapIter.asListed 0 (getOf ("/candies/" ++ Sprintf_d 5))
      (Run.start (post 5 gummyTypePost (Run.start newCandyHandlers)).store)).w.bodyField "type"
        = some "bear" :=
  ⟨rfl, by decide, rfl, rfl,
    (post_then_getCandy 5 MapIter.asListed 0 newCandyHandlers gummyTypePost
      (getOf ("/candies/" ++ Sprintf_d 5)) "gummy" "bear" rfl (by decide) rfl rfl).2.2.2.1⟩

end CandyAPI
